import Mathlib

/-!
Shallow embedding of the 2048 rules engine from `game_2048_model`
(`src/base/mod.rs`, `src/models/array.rs`, `src/models/matrix.rs`).

Boards are 16-cell row-major flat lists (`ArrayBoard`) or 4 rows of 4
cells (`MatrixBoard`).  Cell values are `u8` tile ranks, modelled as
`Nat` with arithmetic taken `% 256` where the source performs `u8`
addition (release-mode wrapping semantics).  The injected randomness
capability (`rand::Rng`) is modelled by passing the drawn integers as
explicit arguments: `gen_range(0, n)` becomes an argument subject to
the contract `< n`.
-/

/-- `Directions` enum from `src/base/mod.rs`. -/
inductive Directions
| up
| right
| down
| left

/-- `NoEmptyError` from `src/base/no_empty_error.rs`. -/
structure NoEmptyError
deriving DecidableEq

instance : DecidableEq (Except NoEmptyError Unit) := fun a b =>
  match a, b with
  | Except.ok (), Except.ok () => isTrue rfl
  | Except.error ⟨⟩, Except.error ⟨⟩ => isTrue rfl
  | Except.ok (), Except.error _ => isFalse (by simp)
  | Except.error _, Except.ok () => isFalse (by simp)

/-- The empty-cell count computed by both `random` implementations:
`board.iter().fold(0, |acc, x| acc + if *x == 0 { 1 } else { 0 })`. -/
def countZeros (b : List Nat) : Nat :=
  b.foldl (fun acc x => acc + if x = 0 then 1 else 0) 0

/-- `UP_INDEX` table from `src/models/array.rs`. -/
def UP_INDEX : List Nat := [0, 4, 8, 12, 1, 5, 9, 13, 2, 6, 10, 14, 3, 7, 11, 15]

/-- `RIGHT_INDEX` table from `src/models/array.rs`. -/
def RIGHT_INDEX : List Nat := [3, 2, 1, 0, 7, 6, 5, 4, 11, 10, 9, 8, 15, 14, 13, 12]

/-- `DOWN_INDEX` table from `src/models/array.rs`. -/
def DOWN_INDEX : List Nat := [12, 8, 4, 0, 13, 9, 5, 1, 14, 10, 6, 2, 15, 11, 7, 3]

/-- `LEFT_INDEX` table from `src/models/array.rs`. -/
def LEFT_INDEX : List Nat := [0, 1, 2, 3, 4, 5, 6, 7, 8, 9, 10, 11, 12, 13, 14, 15]

/-- The four cells of one line: board values at `index[o] .. index[o+3]`. -/
def readLine (b : List Nat) (index : List Nat) (o : Nat) : List Nat :=
  [b.getD (index.getD o 0) 0, b.getD (index.getD (o+1) 0) 0,
   b.getD (index.getD (o+2) 0) 0, b.getD (index.getD (o+3) 0) 0]

/-- Write the four values `vals` back to the cells `index[o] .. index[o+3]`. -/
def writeLine (b : List Nat) (index : List Nat) (o : Nat) (vals : List Nat) : List Nat :=
  (((b.set (index.getD o 0) (vals.getD 0 0)).set
      (index.getD (o+1) 0) (vals.getD 1 0)).set
      (index.getD (o+2) 0) (vals.getD 2 0)).set
      (index.getD (o+3) 0) (vals.getD 3 0)

/-- Outer loop `for outer_i in (0..16).step_by(4)` of `ArrayModel::shift` /
`ArrayModel::merge`: each of the four index-table lines is transformed
independently by the inner-loop body `f` (the inner loop only ever touches
the four cells of its own line, positions renumbered `0..3`). -/
def applyLines (f : List Nat → List Nat) (index : List Nat) (b : List Nat) : List Nat :=
  [0, 4, 8, 12].foldl (fun bb o => writeLine bb index o (f (readLine bb index o))) b

/-- One iteration of the inner loop of `ArrayModel::shift`
(`src/models/array.rs` lines 58-75), on the extracted line.  State:
the line so far and the `movable` cursor (`Option<usize>`). -/
def shiftLineStep (s : List Nat × Option Nat) (i : Nat) : List Nat × Option Nat :=
  let a := s.1
  let v := a.getD i 0
  match s.2 with
  | some m => if v ≠ 0 ∧ i ≠ m then ((a.set m v).set i 0, some (m + 1)) else (a, some m)
  | none => if v = 0 then (a, some i) else (a, none)

/-- Inner loop of `ArrayModel::shift` on one line. -/
def shiftLine (a : List Nat) : List Nat :=
  ((List.range a.length).foldl shiftLineStep (a, none)).1

/-- One iteration of the inner loop of `ArrayModel::merge`
(`src/models/array.rs` lines 88-115).  State: the line, the `mergeable`
cursor, and whether the loop has hit `break` (a zero cell).
`array[prev_ind] += 1` is `u8` addition, hence the `% 256`. -/
def mergeLineStep (s : List Nat × Option Nat × Bool) (i : Nat) : List Nat × Option Nat × Bool :=
  if s.2.2 then s
  else
    let a := s.1
    let v := a.getD i 0
    if v = 0 then (a, s.2.1, true)
    else
      match s.2.1 with
      | some m =>
          if v = a.getD m 0 ∧ m + 1 = i then
            ((a.set m ((a.getD m 0 + 1) % 256)).set i 0, none, false)
          else (a, some i, false)
      | none => (a, some i, false)

/-- Inner loop of `ArrayModel::merge` on one line. -/
def mergeLine (a : List Nat) : List Nat :=
  ((List.range a.length).foldl mergeLineStep (a, none, false)).1

/-- `ArrayModel::shift` (`src/models/array.rs`). -/
def arrayShift (b : List Nat) (index : List Nat) : List Nat :=
  applyLines shiftLine index b

/-- `ArrayModel::merge` (`src/models/array.rs`). -/
def arrayMerge (b : List Nat) (index : List Nat) : List Nat :=
  applyLines mergeLine index b

/-- The index table selected by `ArrayModel::slide`'s `match direction`. -/
def indexOf : Directions → List Nat
  | Directions.up => UP_INDEX
  | Directions.right => RIGHT_INDEX
  | Directions.down => DOWN_INDEX
  | Directions.left => LEFT_INDEX

/-- `ArrayModel::slide` (`src/models/array.rs` lines 226-255): shift,
merge, shift with the direction's table, then compare against the old
board: `if old_board != self.board { Some(true) } else { None }`.
Returns the new board together with the `Option<bool>` result. -/
def arraySlide (b : List Nat) (d : Directions) : List Nat × Option Bool :=
  let nb := arrayShift (arrayMerge (arrayShift b (indexOf d)) (indexOf d)) (indexOf d)
  (nb, if b ≠ nb then some true else none)

/-- The freshly drawn tile of `random`:
`if rng.gen_range(0, 10) > 8 { 2 } else { 1 }`, with the draw passed in. -/
def newTile (vd : Nat) : Nat := if vd > 8 then 2 else 1

/-- The placement scan of `ArrayModel::random` (`src/models/array.rs`
lines 285-295): walk the cells in order; at each empty cell either
place (when the counter has reached the drawn index) or keep counting.
Decrementing `k` at each skipped empty cell is the loop's
`cur_ind += 1` drawing closer to `ind`. -/
def placeAt (l : List Nat) (k : Nat) (v : Nat) : Option (List Nat) :=
  match l with
  | [] => none
  | x :: xs =>
      if x = 0 then
        if k = 0 then some (v :: xs)
        else (placeAt xs (k - 1) v).map (fun t => x :: t)
      else (placeAt xs k v).map (fun t => x :: t)

/-- `ArrayModel::random` (`src/models/array.rs` lines 273-298).  The two
`gen_range` draws are the arguments `ind` (in `[0, count)`) and `vd`
(in `[0, 10)`).  Returns the board after the call (unchanged on error,
mirroring in-place mutation) together with the `Result`. -/
def arrayRandom (b : List Nat) (ind vd : Nat) : List Nat × Except NoEmptyError Unit :=
  if countZeros b = 0 then (b, Except.error ⟨⟩)
  else
    match placeAt b ind (newTile vd) with
    | some b2 => (b2, Except.ok ())
    | none => (b, Except.error ⟨⟩)

/-- `impl From<ArrayBoard> for Matrix` (`src/models/matrix.rs` lines 51-61). -/
def matrixFromArray (a : List Nat) : List (List Nat) :=
  [[a.getD 0 0, a.getD 1 0, a.getD 2 0, a.getD 3 0],
   [a.getD 4 0, a.getD 5 0, a.getD 6 0, a.getD 7 0],
   [a.getD 8 0, a.getD 9 0, a.getD 10 0, a.getD 11 0],
   [a.getD 12 0, a.getD 13 0, a.getD 14 0, a.getD 15 0]]

/-- `Matrix::as_array` (`src/models/matrix.rs` lines 182-202). -/
def matrixAsArray (m : List (List Nat)) : List Nat :=
  [(m.getD 0 []).getD 0 0, (m.getD 0 []).getD 1 0, (m.getD 0 []).getD 2 0, (m.getD 0 []).getD 3 0,
   (m.getD 1 []).getD 0 0, (m.getD 1 []).getD 1 0, (m.getD 1 []).getD 2 0, (m.getD 1 []).getD 3 0,
   (m.getD 2 []).getD 0 0, (m.getD 2 []).getD 1 0, (m.getD 2 []).getD 2 0, (m.getD 2 []).getD 3 0,
   (m.getD 3 []).getD 0 0, (m.getD 3 []).getD 1 0, (m.getD 3 []).getD 2 0, (m.getD 3 []).getD 3 0]

/-- `impl From<MatrixBoard> for ArrayModel` (`src/models/array.rs` lines
136-158): the same sixteen `board[r][c]` reads in row-major order. -/
def arrayFromMatrix (m : List (List Nat)) : List Nat :=
  [(m.getD 0 []).getD 0 0, (m.getD 0 []).getD 1 0, (m.getD 0 []).getD 2 0, (m.getD 0 []).getD 3 0,
   (m.getD 1 []).getD 0 0, (m.getD 1 []).getD 1 0, (m.getD 1 []).getD 2 0, (m.getD 1 []).getD 3 0,
   (m.getD 2 []).getD 0 0, (m.getD 2 []).getD 1 0, (m.getD 2 []).getD 2 0, (m.getD 2 []).getD 3 0,
   (m.getD 3 []).getD 0 0, (m.getD 3 []).getD 1 0, (m.getD 3 []).getD 2 0, (m.getD 3 []).getD 3 0]

/-- `ArrayModel::as_matrix` (`src/models/array.rs` lines 317-330). -/
def arrayAsMatrix (a : List Nat) : List (List Nat) :=
  [[a.getD 0 0, a.getD 1 0, a.getD 2 0, a.getD 3 0],
   [a.getD 4 0, a.getD 5 0, a.getD 6 0, a.getD 7 0],
   [a.getD 8 0, a.getD 9 0, a.getD 10 0, a.getD 11 0],
   [a.getD 12 0, a.getD 13 0, a.getD 14 0, a.getD 15 0]]

/-- One iteration of `Matrix::slide_left`'s inner loop
(`src/models/matrix.rs` lines 311-344), on the traversal-ordered line.
State: the line, `first_empty` and `potential_merge`.  First the merge
phase (`if let Some(p_ind) = potential_merge`), then the value is
re-read and the compaction phase runs.  `slide_up`, `slide_right` and
`slide_down` run the same body over the other traversal orders; with
positions renumbered near-edge-first their `target - 1` becomes this
loop's `target + 1`. -/
def fusedStep (s : List Nat × Option Nat × Option Nat) (i : Nat) :
    List Nat × Option Nat × Option Nat :=
  let t1 : List Nat × Option Nat × Option Nat :=
    match s.2.2 with
    | some p =>
        if s.1.getD p 0 = s.1.getD i 0 then
          ((s.1.set p ((s.1.getD p 0 + 1) % 256)).set i 0, some i, none)
        else (s.1, s.2.1, some p)
    | none => s
  let a := t1.1
  let fe := t1.2.1
  let v := a.getD i 0
  if v = 0 ∧ fe = none then (a, some i, t1.2.2)
  else if v ≠ 0 then
    match fe with
    | some tg => ((a.set tg v).set i 0, some (tg + 1), some tg)
    | none => (a, fe, some i)
  else (a, fe, t1.2.2)

/-- The fused compact-and-merge loop of `Matrix::slide_left` on one line. -/
def fusedLine (a : List Nat) : List Nat :=
  ((List.range a.length).foldl fusedStep (a, none, none)).1

/-- `Matrix::slide` (`src/models/matrix.rs` lines 106-113, 206-344).
`slide_left` processes each row left-to-right; `slide_right` each row
right-to-left (line reversed into traversal order); `slide_up` each
column top-to-bottom; `slide_down` each column bottom-to-top. -/
def matrixSlide (m : List (List Nat)) (d : Directions) : List (List Nat) :=
  match d with
  | Directions.up => (m.transpose.map fusedLine).transpose
  | Directions.right => m.map (fun r => (fusedLine r.reverse).reverse)
  | Directions.down => (m.transpose.map (fun c => (fusedLine c.reverse).reverse)).transpose
  | Directions.left => m.map fusedLine

/-- The nested placement scan of `Matrix::random` (`src/models/matrix.rs`
lines 127-139): rows in order, each row scanned left to right with the
same counter logic, the counter carrying over between rows. -/
def placeInRows (m : List (List Nat)) (k : Nat) (v : Nat) : Option (List (List Nat)) :=
  match m with
  | [] => none
  | row :: rest =>
      match placeAt row k v with
      | some row2 => some (row2 :: rest)
      | none => (placeInRows rest (k - countZeros row) v).map (fun t => row :: t)

/-- `Matrix::random` (`src/models/matrix.rs` lines 115-142); the empty
count is taken over `self.as_array()` exactly as in the source. -/
def matrixRandom (m : List (List Nat)) (ind vd : Nat) :
    List (List Nat) × Except NoEmptyError Unit :=
  if countZeros (matrixAsArray m) = 0 then (m, Except.error ⟨⟩)
  else
    match placeInRows m ind (newTile vd) with
    | some m2 => (m2, Except.ok ())
    | none => (m, Except.error ⟨⟩)

/-- The action of `ArrayModel::slide` on one line, in the traversal
order of the direction's index table: shift, merge, shift. -/
def slideLine (l : List Nat) : List Nat :=
  shiftLine (mergeLine (shiftLine l))

/-- A structurally valid `MatrixBoard`: four rows of four cells (the
Rust type `[[BoardElement; 4]; 4]` guarantees this shape). -/
def WF4 (m : List (List Nat)) : Prop :=
  m.length = 4 ∧ ∀ r ∈ m, r.length = 4

/-- The non-empty cells of a line, in order. -/
def nonzeros (l : List Nat) : List Nat :=
  l.filter (fun x => x != 0)

/-! Sanity checks: the embedding reproduces the unit tests and doc
examples of `src/models/array.rs` and `src/models/matrix.rs`. -/

example : -- doc example of `ArrayModel::slide`
    (arraySlide [2,1,5,2, 3,1,4,2, 0,0,4,2, 3,0,3,2] Directions.down).1 =
      [0,0,0,0, 0,0,5,0, 2,0,5,3, 4,2,3,3] := by decide

example : -- array.rs test `slide_up::join_equal_squares`
    (arraySlide [1,2,3,0, 1,0,0,0, 0,2,0,0, 0,0,3,0] Directions.up).1 =
      [2,3,4,0, 0,0,0,0, 0,0,0,0, 0,0,0,0] := by decide

example : -- array.rs test `slide_up::do_not_join_multiple_pairs_of_squares`
    (arraySlide [1,1,2,0, 1,1,1,0, 1,2,1,0, 1,0,0,0] Directions.up).1 =
      [2,2,2,0, 2,2,2,0, 0,0,0,0, 0,0,0,0] := by decide

example : -- array.rs test `move_right::join_multiple_equal_squares`
    (arraySlide [1,1,2,2, 1,1,1,1, 0,0,0,0, 0,0,0,0] Directions.right).1 =
      [0,0,2,3, 0,0,2,2, 0,0,0,0, 0,0,0,0] := by decide

example : -- array.rs test `slide_down::do_not_join_unequal_squares`
    (arraySlide [0,0,4,0, 0,3,0,0, 2,0,0,0, 1,2,3,0] Directions.down).1 =
      [0,0,0,0, 0,0,0,0, 2,3,4,0, 1,2,3,0] := by decide

example : -- array.rs test `slide_left::join_equal_squares`
    (arraySlide [1,1,0,0, 2,0,2,0, 3,0,0,3, 0,0,0,0] Directions.left).1 =
      [2,0,0,0, 3,0,0,0, 4,0,0,0, 0,0,0,0] := by decide

example : -- array.rs test `slide_left::join_multiple_equal_squares`
    (arraySlide [2,2,1,1, 1,1,1,1, 0,0,0,0, 0,0,0,0] Directions.left).1 =
      [3,2,0,0, 2,2,0,0, 0,0,0,0, 0,0,0,0] := by decide

example : -- array.rs test `slide_up::not_changed_after_move`
    (arraySlide [0,1,0,0, 0,0,0,0, 0,0,0,0, 0,0,0,0] Directions.up).2 = none := by decide

example : -- array.rs test `slide_down::changed_after_move`
    (arraySlide [1,2,3,4, 0,0,0,0, 0,0,0,0, 0,0,0,0] Directions.down).2 = some true := by
  decide

example : -- matrix.rs test `slide_up::join_multiple_equal_squares`
    matrixAsArray (matrixSlide (matrixFromArray [2,1,0,0, 2,1,0,0, 1,1,0,0, 1,1,0,0])
      Directions.up) = [3,2,0,0, 2,2,0,0, 0,0,0,0, 0,0,0,0] := by decide

example : -- matrix.rs test `slide_right::do_not_join_multiple_pairs_of_squares`
    matrixAsArray (matrixSlide (matrixFromArray [1,1,1,1, 0,2,1,1, 0,1,1,2, 0,0,0,0])
      Directions.right) = [0,0,2,2, 0,0,2,2, 0,0,2,2, 0,0,0,0] := by decide

example : -- matrix.rs test `slide_down::join_equal_squares`
    matrixAsArray (matrixSlide (matrixFromArray [0,0,3,0, 0,2,0,0, 1,0,0,0, 1,2,3,0])
      Directions.down) = [0,0,0,0, 0,0,0,0, 0,0,0,0, 2,3,4,0] := by decide

example : -- matrix.rs test `slide_left::do_not_join_unequal_squares`
    matrixAsArray (matrixSlide (matrixFromArray [1,2,0,0, 2,0,3,0, 3,0,0,4, 0,0,0,0])
      Directions.left) = [1,2,0,0, 2,3,0,0, 3,4,0,0, 0,0,0,0] := by decide

example : -- matrix.rs test `slide_left::do_not_join_multiple_pairs_of_squares`
    matrixAsArray (matrixSlide (matrixFromArray [1,1,1,1, 1,1,2,0, 2,1,1,0, 0,0,0,0])
      Directions.left) = [2,2,0,0, 2,2,0,0, 2,2,0,0, 0,0,0,0] := by decide

example : -- array.rs test `random::updates_a_zero_square` (draws 2 % 16 = 2? the
    -- StepRng draw is irrelevant here: first free draw 0 lands on cell 0)
    arrayRandom [0,0,0,0, 0,0,0,0, 0,0,0,0, 0,0,0,0] 0 2 =
      ([1,0,0,0, 0,0,0,0, 0,0,0,0, 0,0,0,0], Except.ok ()) := by decide

example : -- array.rs test `random::ignores_non_zero_squares`
    arrayRandom [6,5,4,3, 0,0,0,0, 0,0,0,0, 0,0,0,0] 0 2 =
      ([6,5,4,3, 1,0,0,0, 0,0,0,0, 0,0,0,0], Except.ok ()) := by decide

example : -- array.rs test `random::no_changes_on_no_empty_error`
    arrayRandom [1,1,1,1, 1,1,1,1, 1,1,1,1, 1,1,1,1] 0 2 =
      ([1,1,1,1, 1,1,1,1, 1,1,1,1, 1,1,1,1], Except.error ⟨⟩) := by decide

example : -- matrix.rs test `random::ignores_non_zero_squares`
    matrixRandom (matrixFromArray [6,5,4,3, 0,0,0,0, 0,0,0,0, 0,0,0,0]) 0 2 =
      (matrixFromArray [6,5,4,3, 1,0,0,0, 0,0,0,0, 0,0,0,0], Except.ok ()) := by decide

/-! Helper lemmas. -/

-- The counting fold of `random`, with a running accumulator.
theorem countZeros_go (l : List Nat) (acc : Nat) :
    l.foldl (fun acc x => acc + if x = 0 then 1 else 0) acc = acc + l.count 0 := by
  induction l generalizing acc with
  | nil => simp
  | cons x xs ih =>
      by_cases hx : x = 0 <;>
        (simp [List.foldl_cons, ih, List.count_cons, hx]; try omega)

-- `countZeros` counts the occurrences of `0`.
theorem countZeros_eq_count (l : List Nat) : countZeros l = l.count 0 := by
  simpa using countZeros_go l 0

-- Unfold a length-4 `shiftLine` into its four loop iterations.
theorem shiftLine_quad (a b c d : Nat) :
    shiftLine [a, b, c, d] =
      (shiftLineStep (shiftLineStep (shiftLineStep (shiftLineStep
        ([a, b, c, d], none) 0) 1) 2) 3).1 := rfl

-- Unfold a length-4 `mergeLine` into its four loop iterations.
theorem mergeLine_quad (a b c d : Nat) :
    mergeLine [a, b, c, d] =
      (mergeLineStep (mergeLineStep (mergeLineStep (mergeLineStep
        ([a, b, c, d], none, false) 0) 1) 2) 3).1 := rfl

-- Unfold a length-4 `fusedLine` into its four loop iterations.
theorem fusedLine_quad (a b c d : Nat) :
    fusedLine [a, b, c, d] =
      (fusedStep (fusedStep (fusedStep (fusedStep
        ([a, b, c, d], none, none) 0) 1) 2) 3).1 := rfl

-- A nonempty list is a cons.
theorem exists_cons_of_length {α : Type} (l : List α) (n : Nat) (h : l.length = n + 1) :
    ∃ x t, l = x :: t ∧ t.length = n := by
  cases l with
  | nil => simp at h
  | cons x t => exact ⟨x, t, rfl, by simpa using h⟩

-- A length-4 list has exactly four cells.
theorem exists_four {α : Type} (l : List α) (h : l.length = 4) :
    ∃ a b c d, l = [a, b, c, d] := by
  obtain ⟨a, l, rfl, h1⟩ := exists_cons_of_length l 3 h
  obtain ⟨b, l, rfl, h2⟩ := exists_cons_of_length l 2 h1
  obtain ⟨c, l, rfl, h3⟩ := exists_cons_of_length l 1 h2
  obtain ⟨d, l, rfl, h4⟩ := exists_cons_of_length l 0 h3
  obtain rfl : l = [] := List.length_eq_zero.mp h4
  exact ⟨a, b, c, d, rfl⟩

-- A length-16 flat board is exactly its sixteen cells.
theorem exists_sixteen (l : List Nat) (h : l.length = 16) :
    ∃ x0 x1 x2 x3 x4 x5 x6 x7 x8 x9 y0 y1 y2 y3 y4 y5,
      l = [x0, x1, x2, x3, x4, x5, x6, x7, x8, x9, y0, y1, y2, y3, y4, y5] := by
  obtain ⟨x0, l, rfl, h1⟩ := exists_cons_of_length l 15 h
  obtain ⟨x1, l, rfl, h2⟩ := exists_cons_of_length l 14 h1
  obtain ⟨x2, l, rfl, h3⟩ := exists_cons_of_length l 13 h2
  obtain ⟨x3, l, rfl, h4⟩ := exists_cons_of_length l 12 h3
  obtain ⟨x4, l, rfl, h5⟩ := exists_cons_of_length l 11 h4
  obtain ⟨x5, l, rfl, h6⟩ := exists_cons_of_length l 10 h5
  obtain ⟨x6, l, rfl, h7⟩ := exists_cons_of_length l 9 h6
  obtain ⟨x7, l, rfl, h8⟩ := exists_cons_of_length l 8 h7
  obtain ⟨x8, l, rfl, h9⟩ := exists_cons_of_length l 7 h8
  obtain ⟨x9, l, rfl, h10⟩ := exists_cons_of_length l 6 h9
  obtain ⟨y0, l, rfl, h11⟩ := exists_cons_of_length l 5 h10
  obtain ⟨y1, l, rfl, h12⟩ := exists_cons_of_length l 4 h11
  obtain ⟨y2, l, rfl, h13⟩ := exists_cons_of_length l 3 h12
  obtain ⟨y3, l, rfl, h14⟩ := exists_cons_of_length l 2 h13
  obtain ⟨y4, l, rfl, h15⟩ := exists_cons_of_length l 1 h14
  obtain ⟨y5, l, rfl, h16⟩ := exists_cons_of_length l 0 h15
  obtain rfl : l = [] := List.length_eq_zero.mp h16
  exact ⟨x0, x1, x2, x3, x4, x5, x6, x7, x8, x9, y0, y1, y2, y3, y4, y5, rfl⟩

-- `writeLine` never changes the board's length.
theorem writeLine_length (b index : List Nat) (o : Nat) (vals : List Nat) :
    (writeLine b index o vals).length = b.length := by
  simp [writeLine]

-- `applyLines` never changes the board's length.
theorem applyLines_length (f : List Nat → List Nat) (index b : List Nat) :
    (applyLines f index b).length = b.length := by
  simp [applyLines, writeLine]

-- The board produced by `ArrayModel::slide` has the input's length.
theorem arraySlide_length (b : List Nat) (d : Directions) :
    (arraySlide b d).1.length = b.length := by
  simp [arraySlide, arrayShift, arrayMerge, applyLines_length]

-- Two length-16 boards that agree cell-by-cell are equal.
theorem eq_of_getD_eq (l₁ l₂ : List Nat) (h₁ : l₁.length = 16) (h₂ : l₂.length = 16)
    (h : ∀ i, i < 16 → l₁.getD i 0 = l₂.getD i 0) : l₁ = l₂ := by
  apply List.ext_getElem (by omega)
  intro i hi₁ hi₂
  have hlt : i < 16 := by omega
  have := h i hlt
  rwa [List.getD_eq_getElem l₁ 0 hi₁, List.getD_eq_getElem l₂ 0 hi₂] at this

-- The placement scan with a drawn index below the number of empty
-- cells places the new value at the position of the `k`-th empty cell
-- and touches nothing else.
theorem placeAt_spec (v : Nat) :
    ∀ (l : List Nat) (k : Nat), k < l.count 0 →
      ∃ j, j < l.length ∧ l.getD j 0 = 0 ∧ (l.take j).count 0 = k ∧
        placeAt l k v = some (l.set j v) := by
  intro l
  induction l with
  | nil => intro k hk; simp at hk
  | cons x xs ih =>
      intro k hk
      by_cases hx : x = 0
      · subst hx
        cases k with
        | zero => exact ⟨0, by simp, rfl, by simp, by simp [placeAt]⟩
        | succ k' =>
            have hk' : k' < xs.count 0 := by
              simp [List.count_cons] at hk; omega
            obtain ⟨j, hj, hz, hc, hp⟩ := ih k' hk'
            refine ⟨j + 1, by simpa using hj, by simpa using hz, ?_, ?_⟩
            · simp [List.count_cons, hc]
            · simp [placeAt, hp]
      · have hk' : k < xs.count 0 := by
          simpa [List.count_cons, hx] using hk
        obtain ⟨j, hj, hz, hc, hp⟩ := ih k hk'
        refine ⟨j + 1, by simpa using hj, by simpa using hz, ?_, ?_⟩
        · simp [List.count_cons, hx, hc]
        · simp [placeAt, hx, hp]

-- The scan falls off the end when the drawn index is at least the
-- number of empty cells.
theorem placeAt_none (v : Nat) :
    ∀ (l : List Nat) (k : Nat), l.count 0 ≤ k → placeAt l k v = none := by
  intro l
  induction l with
  | nil => intro k _; rfl
  | cons x xs ih =>
      intro k hk
      by_cases hx : x = 0
      · subst hx
        have h1 : k ≠ 0 := by simp [List.count_cons] at hk; omega
        have h2 : xs.count 0 ≤ k - 1 := by simp [List.count_cons] at hk; omega
        simp [placeAt, h1, ih _ h2]
      · have h2 : xs.count 0 ≤ k := by simpa [List.count_cons, hx] using hk
        simp [placeAt, hx, ih _ h2]

-- The nested scan of `Matrix::random` places at the `k`-th empty cell
-- of the row-major flattening and touches nothing else.
theorem placeInRows_spec (v : Nat) :
    ∀ (m : List (List Nat)) (k : Nat), k < m.flatten.count 0 →
      ∃ m2 j, placeInRows m k v = some m2 ∧ j < m.flatten.length ∧
        m.flatten.getD j 0 = 0 ∧ (m.flatten.take j).count 0 = k ∧
        m2.flatten = m.flatten.set j v ∧ m2.map List.length = m.map List.length := by
  intro m
  induction m with
  | nil => intro k hk; simp at hk
  | cons row rest ih =>
      intro k hk
      by_cases hrow : k < row.count 0
      · obtain ⟨j, hj, hz, hc, hp⟩ := placeAt_spec v row k hrow
        refine ⟨row.set j v :: rest, j, ?_, ?_, ?_, ?_, ?_, ?_⟩
        · simp [placeInRows, hp]
        · simp; omega
        · rw [List.flatten_cons, List.getD_append _ _ _ _ hj]
          exact hz
        · rw [List.flatten_cons, List.take_append_of_le_length (le_of_lt hj)]
          exact hc
        · simp [List.set_append_left _ _ hj]
        · simp
      · have h1 : row.count 0 ≤ k := le_of_not_lt hrow
        have hk' : k - countZeros row < rest.flatten.count 0 := by
          rw [countZeros_eq_count]
          simp [List.count_append] at hk
          omega
        obtain ⟨m2, j, hpl, hj, hz, hc, hfl, hlen⟩ := ih _ hk'
        refine ⟨row :: m2, row.length + j, ?_, ?_, ?_, ?_, ?_, ?_⟩
        · simp [placeInRows, placeAt_none v row k h1, hpl]
        · rw [List.flatten_cons, List.length_append]; omega
        · rw [List.flatten_cons,
            List.getD_append_right _ _ _ _ (Nat.le_add_right _ _)]
          simpa using hz
        · rw [List.flatten_cons, List.take_append, List.count_append, hc,
            countZeros_eq_count]
          omega
        · have hidx : row.length + j - row.length = j := by omega
          rw [List.flatten_cons, List.flatten_cons, hfl,
            List.set_append_right _ _ (Nat.le_add_right _ _), hidx]
        · simpa using hlen

-- On a structurally valid matrix the row-major extraction is flattening.
theorem matrixAsArray_eq_flatten (m : List (List Nat)) (h : WF4 m) :
    matrixAsArray m = m.flatten := by
  obtain ⟨hlen, hrows⟩ := h
  obtain ⟨r0, r1, r2, r3, rfl⟩ := exists_four m hlen
  obtain ⟨a0, a1, a2, a3, rfl⟩ := exists_four r0 (hrows _ (by simp))
  obtain ⟨b0, b1, b2, b3, rfl⟩ := exists_four r1 (hrows _ (by simp))
  obtain ⟨c0, c1, c2, c3, rfl⟩ := exists_four r2 (hrows _ (by simp))
  obtain ⟨d0, d1, d2, d3, rfl⟩ := exists_four r3 (hrows _ (by simp))
  rfl

-- Rebuilding from the flattening restores a structurally valid matrix.
theorem matrixFromArray_flatten (m : List (List Nat)) (h : WF4 m) :
    matrixFromArray m.flatten = m := by
  obtain ⟨hlen, hrows⟩ := h
  obtain ⟨r0, r1, r2, r3, rfl⟩ := exists_four m hlen
  obtain ⟨a0, a1, a2, a3, rfl⟩ := exists_four r0 (hrows _ (by simp))
  obtain ⟨b0, b1, b2, b3, rfl⟩ := exists_four r1 (hrows _ (by simp))
  obtain ⟨c0, c1, c2, c3, rfl⟩ := exists_four r2 (hrows _ (by simp))
  obtain ⟨d0, d1, d2, d3, rfl⟩ := exists_four r3 (hrows _ (by simp))
  rfl

-- A matrix with the same row lengths as a structurally valid one is valid.
theorem WF4_of_map_length_eq (m2 m : List (List Nat))
    (h : m2.map List.length = m.map List.length) (hm : WF4 m) : WF4 m2 := by
  obtain ⟨hlen, hrows⟩ := hm
  obtain ⟨r0, r1, r2, r3, rfl⟩ := exists_four m hlen
  have hlen2 : m2.length = 4 := by
    have := congrArg List.length h
    simpa using this
  obtain ⟨s0, s1, s2, s3, rfl⟩ := exists_four m2 hlen2
  simp only [List.map_cons, List.map_nil, List.cons.injEq, and_true] at h
  obtain ⟨e0, e1, e2, e3⟩ := h
  refine ⟨rfl, ?_⟩
  intro r hr
  simp only [List.mem_cons, List.not_mem_nil, or_false] at hr
  rcases hr with rfl | rfl | rfl | rfl
  · rw [e0]; exact hrows _ (by simp)
  · rw [e1]; exact hrows _ (by simp)
  · rw [e2]; exact hrows _ (by simp)
  · rw [e3]; exact hrows _ (by simp)

-- `ArrayModel::slide` unfolded into its board and its moved flag.
theorem arraySlide_def (b : List Nat) (d : Directions) :
    arraySlide b d =
      (arrayShift (arrayMerge (arrayShift b (indexOf d)) (indexOf d)) (indexOf d),
       if b ≠ arrayShift (arrayMerge (arrayShift b (indexOf d)) (indexOf d)) (indexOf d)
       then some true else none) := rfl

/-! The claims. -/

/-- C1: the claim states that `ArrayModel::slide` and `Matrix::slide`
are functionally equivalent on every board and direction (compared
through `as_array`).  The code violates this: on the board whose first
row is `[1, 0, 1, 2]`, sliding left gives `[2, 2, 0, 0, ...]` in the
`ArrayModel` but `[2, 0, 2, 0, ...]` in the `Matrix` model, because the
fused loop of `Matrix::slide_left` overwrites the remembered
`first_empty` slot when a merge fires and never re-compacts the line.
The spec's three-pass algorithm (with its mandatory re-compaction pass)
and the disabled doc example of `Matrix::slide` show the `ArrayModel`
behaviour is the intent, so this is a code bug.  This theorem evaluates
both implementations at the failing input. -/
theorem c1_representations_diverge :
    (arraySlide [1,0,1,2, 0,0,0,0, 0,0,0,0, 0,0,0,0] Directions.left).1 =
      [2,2,0,0, 0,0,0,0, 0,0,0,0, 0,0,0,0] ∧
    matrixAsArray (matrixSlide (matrixFromArray [1,0,1,2, 0,0,0,0, 0,0,0,0, 0,0,0,0])
      Directions.left) = [2,0,2,0, 0,0,0,0, 0,0,0,0, 0,0,0,0] ∧
    matrixAsArray (matrixSlide (matrixFromArray [1,0,1,2, 0,0,0,0, 0,0,0,0, 0,0,0,0])
      Directions.left) ≠
      (arraySlide [1,0,1,2, 0,0,0,0, 0,0,0,0, 0,0,0,0] Directions.left).1 := by
  decide

/-- C2: the claim states that after every slide the non-empty cells of
every line are contiguous from the near edge.  `Matrix::slide` violates
this: sliding the board whose first row is `[2, 0, 1, 1]`-style input
`[2, 0, 2, 1]` to the left leaves the row `[3, 0, 1, 0]`, an empty cell
at column 1 nearer the near edge than the tile at column 2, because the
fused loop drops the remembered gap on a merge and has no re-compaction
pass (the pass the spec mandates).  This theorem evaluates the code at
the failing input and exhibits the violated contiguity. -/
theorem c2_matrix_leaves_gap :
    matrixAsArray (matrixSlide (matrixFromArray [2,0,2,1, 0,0,0,0, 0,0,0,0, 0,0,0,0])
      Directions.left) = [3,0,1,0, 0,0,0,0, 0,0,0,0, 0,0,0,0] ∧
    (matrixAsArray (matrixSlide (matrixFromArray [2,0,2,1, 0,0,0,0, 0,0,0,0, 0,0,0,0])
      Directions.left)).getD 1 0 = 0 ∧
    (matrixAsArray (matrixSlide (matrixFromArray [2,0,2,1, 0,0,0,0, 0,0,0,0, 0,0,0,0])
      Directions.left)).getD 2 0 ≠ 0 := by
  decide

/-- C3: for every 16-cell board and direction, `ArrayModel::slide`
reports a change (`Some(true)`) exactly when some cell's rank differs
between the pre-move and post-move board, and when the board is
unchanged it reports no change (`None`, the encoding of
`moved = false`). -/
theorem c3_moved_iff_board_changed (b : List Nat) (d : Directions) (hb : b.length = 16) :
    (((arraySlide b d).2 = some true) ↔
      ∃ i, i < 16 ∧ (arraySlide b d).1.getD i 0 ≠ b.getD i 0) ∧
    ((arraySlide b d).1 = b → (arraySlide b d).2 = none) := by
  rw [arraySlide_def]
  generalize hnb :
    arrayShift (arrayMerge (arrayShift b (indexOf d)) (indexOf d)) (indexOf d) = nb
  have hlen : nb.length = 16 := by
    rw [← hnb, arrayShift, arrayMerge, arrayShift, applyLines_length, applyLines_length,
      applyLines_length]
    exact hb
  split_ifs with hb'
  · refine ⟨⟨fun _ => ?_, fun _ => rfl⟩, fun heq => absurd heq.symm hb'⟩
    by_contra hno
    push_neg at hno
    exact hb' (eq_of_getD_eq b nb hb hlen (fun i hi => (hno i hi).symm))
  · push_neg at hb'
    refine ⟨⟨fun h => ?_, ?_⟩, fun _ => rfl⟩
    · simp at h
    · rintro ⟨i, hi, hne⟩
      rw [hb'] at hne
      exact absurd rfl hne

/-- C3 witness: on the already-slid board of the repository's
`slide_up::not_changed_after_move` test, the slide leaves the board
identical and the flag is `None`. -/
theorem c3_moved_iff_board_changed_witness :
    (arraySlide [0,1,0,0, 0,0,0,0, 0,0,0,0, 0,0,0,0] Directions.up).2 = none :=
  (c3_moved_iff_board_changed [0,1,0,0, 0,0,0,0, 0,0,0,0, 0,0,0,0] Directions.up
    (by decide)).2 (by decide)

/-- C4: when the board has no empty cell (no rank-0 cell), `random`
fails with `NoEmptyError` and returns the board bit-for-bit unchanged,
whatever the randomness draws are, in both the `ArrayModel` and the
`Matrix` implementation. -/
theorem c4_random_full_board_error (b : List Nat) (m : List (List Nat))
    (ia va im vm : Nat) (h1 : countZeros b = 0) (h2 : countZeros (matrixAsArray m) = 0) :
    arrayRandom b ia va = (b, Except.error ⟨⟩) ∧
    matrixRandom m im vm = (m, Except.error ⟨⟩) := by
  constructor
  · simp [arrayRandom, h1]
  · simp [matrixRandom, h2]

/-- C4 witness: the all-ones full board of the repository's
`no_changes_on_no_empty_error` tests. -/
theorem c4_random_full_board_error_witness :
    arrayRandom [1,1,1,1, 1,1,1,1, 1,1,1,1, 1,1,1,1] 3 9 =
      ([1,1,1,1, 1,1,1,1, 1,1,1,1, 1,1,1,1], Except.error ⟨⟩) ∧
    matrixRandom [[1,1,1,1], [1,1,1,1], [1,1,1,1], [1,1,1,1]] 3 9 =
      ([[1,1,1,1], [1,1,1,1], [1,1,1,1], [1,1,1,1]], Except.error ⟨⟩) :=
  c4_random_full_board_error [1,1,1,1, 1,1,1,1, 1,1,1,1, 1,1,1,1]
    [[1,1,1,1], [1,1,1,1], [1,1,1,1], [1,1,1,1]] 3 9 3 9 (by decide) (by decide)

/-- C8: the conversions between the flat and the nested board view are
mutually inverse: `Matrix::from(ArrayBoard)` followed by
`Matrix::as_array` restores every 16-cell flat board, and
`ArrayModel::from(MatrixBoard)` followed by `ArrayModel::as_matrix`
restores every 4-by-4 nested board (cells related by
flat index = row * 4 + col). -/
theorem c8_roundtrip_conversions :
    (∀ a : List Nat, a.length = 16 → matrixAsArray (matrixFromArray a) = a) ∧
    (∀ m : List (List Nat), WF4 m → arrayAsMatrix (arrayFromMatrix m) = m) := by
  constructor
  · intro a ha
    obtain ⟨x0, x1, x2, x3, x4, x5, x6, x7, x8, x9, y0, y1, y2, y3, y4, y5, rfl⟩ :=
      exists_sixteen a ha
    rfl
  · intro m hm
    obtain ⟨hlen, hrows⟩ := hm
    obtain ⟨r0, r1, r2, r3, rfl⟩ := exists_four m hlen
    obtain ⟨a0, a1, a2, a3, rfl⟩ := exists_four r0 (hrows _ (by simp))
    obtain ⟨b0, b1, b2, b3, rfl⟩ := exists_four r1 (hrows _ (by simp))
    obtain ⟨c0, c1, c2, c3, rfl⟩ := exists_four r2 (hrows _ (by simp))
    obtain ⟨d0, d1, d2, d3, rfl⟩ := exists_four r3 (hrows _ (by simp))
    rfl

/-- C8 witness: round trip of the doc-example board of the conversion
functions, in both directions. -/
theorem c8_roundtrip_conversions_witness :
    matrixAsArray (matrixFromArray [0,1,1,0, 1,2,2,1, 1,2,2,1, 0,1,1,0]) =
      [0,1,1,0, 1,2,2,1, 1,2,2,1, 0,1,1,0] ∧
    arrayAsMatrix (arrayFromMatrix [[0,1,1,0], [1,2,2,1], [1,2,2,1], [0,1,1,0]]) =
      [[0,1,1,0], [1,2,2,1], [1,2,2,1], [0,1,1,0]] :=
  ⟨c8_roundtrip_conversions.1 [0,1,1,0, 1,2,2,1, 1,2,2,1, 0,1,1,0] (by decide),
   c8_roundtrip_conversions.2 [[0,1,1,0], [1,2,2,1], [1,2,2,1], [0,1,1,0]]
     ⟨by decide, by decide⟩⟩

/-- C9: tile ranks are `u8` values, and the merge step of both
implementations computes the candidate's rank plus one in (wrapping)
8-bit arithmetic, so merging two adjacent rank-255 tiles writes
`(255 + 1) % 256 = 0` — the merged tile becomes indistinguishable from
an empty cell. -/
theorem c9_u8_rank_wraparound :
    mergeLine [255, 255, 0, 0] = [(255 + 1) % 256, 0, 0, 0] ∧
    (255 + 1) % 256 = 0 ∧
    fusedLine [255, 255, 0, 0] = [(255 + 1) % 256, 0, 0, 0] ∧
    (arraySlide [255,255,0,0, 0,0,0,0, 0,0,0,0, 0,0,0,0] Directions.left).1 =
      [0,0,0,0, 0,0,0,0, 0,0,0,0, 0,0,0,0] := by
  decide

/-- C10: `ArrayModel::slide` never returns `Some(false)`: its result is
`None` exactly when the board is unchanged and `Some(true)` exactly
when it changed, on every board and direction. -/
theorem c10_never_some_false (b : List Nat) (d : Directions) :
    (arraySlide b d).2 ≠ some false ∧
    ((arraySlide b d).2 = none ↔ (arraySlide b d).1 = b) ∧
    ((arraySlide b d).2 = some true ↔ (arraySlide b d).1 ≠ b) := by
  rw [arraySlide_def]
  generalize hnb :
    arrayShift (arrayMerge (arrayShift b (indexOf d)) (indexOf d)) (indexOf d) = nb
  split_ifs with h
  · exact ⟨fun hcon => by simp at hcon,
      ⟨fun hcon => by simp at hcon, fun heq => absurd heq.symm h⟩,
      ⟨fun _ => Ne.symm h, fun _ => rfl⟩⟩
  · push_neg at h
    exact ⟨fun hcon => by simp at hcon,
      ⟨fun _ => h.symm, fun _ => rfl⟩,
      ⟨fun hcon => by simp at hcon, fun hne => absurd h.symm hne⟩⟩

-- The freshly spawned tile is never the empty rank.
theorem newTile_ne_zero (vd : Nat) : newTile vd ≠ 0 := by
  unfold newTile
  split <;> simp

/-- C5: when the board has at least one empty cell and the position
draw is in `[0, count)`, `random` succeeds and changes exactly one
cell: the cell was empty, receives the (non-zero) freshly drawn tile,
all other cells are untouched (the result is a pointwise `set`), and
the chosen cell is the `ind`-th empty cell in row-major order — in
both the `ArrayModel` and the `Matrix` implementation. -/
theorem c5_random_places_kth_empty :
    (∀ (b : List Nat) (ind vd : Nat), b.length = 16 → ind < countZeros b →
      ∃ j, j < 16 ∧ b.getD j 0 = 0 ∧ countZeros (b.take j) = ind ∧ newTile vd ≠ 0 ∧
        arrayRandom b ind vd = (b.set j (newTile vd), Except.ok ())) ∧
    (∀ (m : List (List Nat)) (ind vd : Nat), WF4 m → ind < countZeros (matrixAsArray m) →
      ∃ j, j < 16 ∧ (matrixAsArray m).getD j 0 = 0 ∧
        countZeros ((matrixAsArray m).take j) = ind ∧
        matrixRandom m ind vd =
          (matrixFromArray ((matrixAsArray m).set j (newTile vd)), Except.ok ())) := by
  constructor
  · intro b ind vd hb hcount
    have hc' : ind < b.count 0 := by rwa [countZeros_eq_count] at hcount
    obtain ⟨j, hj, hz, hc, hp⟩ := placeAt_spec (newTile vd) b ind hc'
    refine ⟨j, by omega, hz, ?_, newTile_ne_zero vd, ?_⟩
    · rw [countZeros_eq_count]
      exact hc
    · have hne : ¬(countZeros b = 0) := by omega
      simp [arrayRandom, hne, hp]
  · intro m ind vd hm hcount
    have hflat : matrixAsArray m = m.flatten := matrixAsArray_eq_flatten m hm
    have hflatlen : m.flatten.length = 16 := by rw [← hflat]; rfl
    have hc' : ind < m.flatten.count 0 := by
      rw [hflat, countZeros_eq_count] at hcount
      exact hcount
    obtain ⟨m2, j, hpl, hj, hz, hc, hfl, hlenmap⟩ := placeInRows_spec (newTile vd) m ind hc'
    have hWF2 : WF4 m2 := WF4_of_map_length_eq m2 m hlenmap hm
    have hrebuild : matrixFromArray ((matrixAsArray m).set j (newTile vd)) = m2 := by
      rw [hflat, ← hfl, matrixFromArray_flatten m2 hWF2]
    refine ⟨j, by omega, ?_, ?_, ?_⟩
    · rw [hflat]
      exact hz
    · rw [hflat, countZeros_eq_count]
      exact hc
    · rw [hrebuild]
      have hne : ¬(countZeros (matrixAsArray m) = 0) := by omega
      simp [matrixRandom, hne, hpl]

/-- C5 witness: placing with draw 0 on the `ignores_non_zero_squares`
test board fills the first empty cell (flat index 4) in both models. -/
theorem c5_random_places_kth_empty_witness :
    (∃ j, j < 16 ∧ ([6,5,4,3, 0,0,0,0, 0,0,0,0, 0,0,0,0] : List Nat).getD j 0 = 0 ∧
      countZeros (([6,5,4,3, 0,0,0,0, 0,0,0,0, 0,0,0,0] : List Nat).take j) = 0 ∧
      newTile 2 ≠ 0 ∧
      arrayRandom [6,5,4,3, 0,0,0,0, 0,0,0,0, 0,0,0,0] 0 2 =
        (([6,5,4,3, 0,0,0,0, 0,0,0,0, 0,0,0,0] : List Nat).set j (newTile 2),
         Except.ok ())) ∧
    (∃ j, j < 16 ∧
      (matrixAsArray [[6,5,4,3], [0,0,0,0], [0,0,0,0], [0,0,0,0]]).getD j 0 = 0 ∧
      countZeros ((matrixAsArray [[6,5,4,3], [0,0,0,0], [0,0,0,0], [0,0,0,0]]).take j) = 0 ∧
      matrixRandom [[6,5,4,3], [0,0,0,0], [0,0,0,0], [0,0,0,0]] 0 2 =
        (matrixFromArray
          ((matrixAsArray [[6,5,4,3], [0,0,0,0], [0,0,0,0], [0,0,0,0]]).set j (newTile 2)),
         Except.ok ())) :=
  ⟨c5_random_places_kth_empty.1 [6,5,4,3, 0,0,0,0, 0,0,0,0, 0,0,0,0] 0 2
    (by decide) (by decide),
   c5_random_places_kth_empty.2 [[6,5,4,3], [0,0,0,0], [0,0,0,0], [0,0,0,0]] 0 2
    ⟨by decide, by decide⟩ (by decide)⟩

/-- C6 counterexample: the claim asserts that for every rank `r` a line
of three adjacent equal rank-`r` tiles produces exactly one merged pair
and one leftover singleton.  At `r = 255` the `u8` merge wraps the
merged pair's rank to `0`, so the slid line keeps only the singleton —
no merged-pair tile exists — refuting the claim as stated at this
input (in both implementations). -/
theorem c6_counterexample_rank255 :
    slideLine [255, 255, 255, 0] = [255, 0, 0, 0] ∧
    fusedLine [255, 255, 255, 0] = [0, 255, 0, 0] ∧
    nonzeros (slideLine [255, 255, 255, 0]) = [255] ∧
    nonzeros (fusedLine [255, 255, 255, 0]) = [255] ∧
    slideLine [255, 255, 255, 0] ≠ [255 + 1, 255, 0, 0] := by
  decide

/-- C6 (amended with `r + 1 ≤ 255`, the ranks whose successor is
representable in the `u8` cell): a line of three adjacent equal
rank-`r` tiles slid toward the near edge produces exactly one merged
pair (rank `r + 1`) and one leftover singleton of rank `r`, and a full
line of four rank-`r` tiles produces exactly two merged pairs — the
tile produced by a merge never merges again in the same move — in both
the `ArrayModel` three-pass line algorithm and the `Matrix` fused
loop. -/
theorem c6_no_chain_merge (r : Nat) (h0 : 0 < r) (h1 : r + 1 < 256) :
    slideLine [r, r, r, 0] = [r + 1, r, 0, 0] ∧
    fusedLine [r, r, r, 0] = [r + 1, r, 0, 0] ∧
    slideLine [r, r, r, r] = [r + 1, r + 1, 0, 0] ∧
    fusedLine [r, r, r, r] = [r + 1, r + 1, 0, 0] := by
  have h0' : r ≠ 0 := by omega
  have h2 : r + 1 ≠ 0 := Nat.succ_ne_zero r
  have h3 : (r + 1) % 256 = r + 1 := Nat.mod_eq_of_lt h1
  refine ⟨?_, ?_, ?_, ?_⟩ <;>
    simp [slideLine, shiftLine_quad, mergeLine_quad, fusedLine_quad, shiftLineStep,
      mergeLineStep, fusedStep, h0', h2, h3]

/-- C6 witness: the amended no-chain-merge behaviour at rank 1, the
shape of the repository's `do_not_join_multiple_pairs_of_squares`
tests. -/
theorem c6_no_chain_merge_witness :
    slideLine [1, 1, 1, 0] = [2, 1, 0, 0] ∧
    fusedLine [1, 1, 1, 0] = [2, 1, 0, 0] ∧
    slideLine [1, 1, 1, 1] = [2, 2, 0, 0] ∧
    fusedLine [1, 1, 1, 1] = [2, 2, 0, 0] :=
  c6_no_chain_merge 1 (by decide) (by decide)

/-- C7 counterexample: the claim asserts that a line holding exactly
two equal rank-`r` tiles slides to one tile of the successor rank
`r + 1` at the near edge.  At `r = 255` the `u8` merge wraps to `0`
and the line comes out entirely empty, not `[256, 0, 0, 0]`. -/
theorem c7_counterexample_rank255 :
    nonzeros [255, 255, 0, 0] = [255, 255] ∧
    slideLine [255, 255, 0, 0] = [0, 0, 0, 0] ∧
    slideLine [255, 255, 0, 0] ≠ [255 + 1, 0, 0, 0] := by
  decide

-- Line evaluations for the six placements of two equal tiles.
theorem slideLine_two_a (r : Nat) (h0 : r ≠ 0) (h1 : (r + 1) % 256 = r + 1)
    (h2 : r + 1 ≠ 0) : slideLine [r, r, 0, 0] = [r + 1, 0, 0, 0] := by
  simp [slideLine, shiftLine_quad, mergeLine_quad, shiftLineStep, mergeLineStep, h0, h2, h1]

theorem slideLine_two_b (r : Nat) (h0 : r ≠ 0) (h1 : (r + 1) % 256 = r + 1)
    (h2 : r + 1 ≠ 0) : slideLine [r, 0, r, 0] = [r + 1, 0, 0, 0] := by
  simp [slideLine, shiftLine_quad, mergeLine_quad, shiftLineStep, mergeLineStep, h0, h2, h1]

theorem slideLine_two_c (r : Nat) (h0 : r ≠ 0) (h1 : (r + 1) % 256 = r + 1)
    (h2 : r + 1 ≠ 0) : slideLine [r, 0, 0, r] = [r + 1, 0, 0, 0] := by
  simp [slideLine, shiftLine_quad, mergeLine_quad, shiftLineStep, mergeLineStep, h0, h2, h1]

theorem slideLine_two_d (r : Nat) (h0 : r ≠ 0) (h1 : (r + 1) % 256 = r + 1)
    (h2 : r + 1 ≠ 0) : slideLine [0, r, r, 0] = [r + 1, 0, 0, 0] := by
  simp [slideLine, shiftLine_quad, mergeLine_quad, shiftLineStep, mergeLineStep, h0, h2, h1]

theorem slideLine_two_e (r : Nat) (h0 : r ≠ 0) (h1 : (r + 1) % 256 = r + 1)
    (h2 : r + 1 ≠ 0) : slideLine [0, r, 0, r] = [r + 1, 0, 0, 0] := by
  simp [slideLine, shiftLine_quad, mergeLine_quad, shiftLineStep, mergeLineStep, h0, h2, h1]

theorem slideLine_two_f (r : Nat) (h0 : r ≠ 0) (h1 : (r + 1) % 256 = r + 1)
    (h2 : r + 1 ≠ 0) : slideLine [0, 0, r, r] = [r + 1, 0, 0, 0] := by
  simp [slideLine, shiftLine_quad, mergeLine_quad, shiftLineStep, mergeLineStep, h0, h2, h1]

/-- C7 (amended with `r + 1 ≤ 255`, the ranks whose successor is
representable in the `u8` cell): every 4-cell line whose non-empty
cells are exactly two tiles of equal non-zero rank `r` — any positions,
so possibly separated by empty cells — slides to a single tile of rank
`r + 1` at the near-edge cell with the rest of the line empty, and the
line changes (the board-level `moved` flag is true); in particular
`[2,2,0,0]` becomes `[3,0,0,0]`. -/
theorem c7_two_equal_tiles_merge (l : List Nat) (r : Nat) (hlen : l.length = 4)
    (h0 : 0 < r) (h1 : r + 1 < 256) (hf : nonzeros l = [r, r]) :
    slideLine l = [r + 1, 0, 0, 0] ∧ slideLine l ≠ l := by
  have h0' : r ≠ 0 := by omega
  have h2 : r + 1 ≠ 0 := Nat.succ_ne_zero r
  have hsucc : r + 1 ≠ r := by omega
  have h3 : (r + 1) % 256 = r + 1 := Nat.mod_eq_of_lt h1
  obtain ⟨a, b, c, d, rfl⟩ := exists_four l hlen
  by_cases ha : a = 0 <;> by_cases hb : b = 0 <;> by_cases hc : c = 0 <;> by_cases hd : d = 0
  · subst ha hb hc hd; simp [nonzeros] at hf
  · subst ha hb hc; simp [nonzeros, hd] at hf
  · subst ha hb hd; simp [nonzeros, hc] at hf
  · subst ha hb
    simp [nonzeros, hc, hd] at hf
    rw [hf.1, hf.2]
    exact ⟨slideLine_two_f r h0' h3 h2, by
      rw [slideLine_two_f r h0' h3 h2]; simp [h2]⟩
  · subst ha hc hd; simp [nonzeros, hb] at hf
  · subst ha hc
    simp [nonzeros, hb, hd] at hf
    rw [hf.1, hf.2]
    exact ⟨slideLine_two_e r h0' h3 h2, by
      rw [slideLine_two_e r h0' h3 h2]; simp [h2]⟩
  · subst ha hd
    simp [nonzeros, hb, hc] at hf
    rw [hf.1, hf.2]
    exact ⟨slideLine_two_d r h0' h3 h2, by
      rw [slideLine_two_d r h0' h3 h2]; simp [h2]⟩
  · subst ha; simp [nonzeros, hb, hc, hd] at hf
  · subst hb hc hd; simp [nonzeros, ha] at hf
  · subst hb hc
    simp [nonzeros, ha, hd] at hf
    rw [hf.1, hf.2]
    exact ⟨slideLine_two_c r h0' h3 h2, by
      rw [slideLine_two_c r h0' h3 h2]; simp [hsucc]⟩
  · subst hb hd
    simp [nonzeros, ha, hc] at hf
    rw [hf.1, hf.2]
    exact ⟨slideLine_two_b r h0' h3 h2, by
      rw [slideLine_two_b r h0' h3 h2]; simp [hsucc]⟩
  · subst hb; simp [nonzeros, ha, hc, hd] at hf
  · subst hc hd
    simp [nonzeros, ha, hb] at hf
    rw [hf.1, hf.2]
    exact ⟨slideLine_two_a r h0' h3 h2, by
      rw [slideLine_two_a r h0' h3 h2]; simp [hsucc]⟩
  · subst hc; simp [nonzeros, ha, hb, hd] at hf
  · subst hd; simp [nonzeros, ha, hb, hc] at hf
  · simp [nonzeros, ha, hb, hc, hd] at hf

/-- C7 witness: the spec's own scenario, `[2,2,0,0]` slid toward the
near edge becomes `[3,0,0,0]` and the line changed. -/
theorem c7_two_equal_tiles_merge_witness :
    slideLine [2, 2, 0, 0] = [3, 0, 0, 0] ∧ slideLine [2, 2, 0, 0] ≠ [2, 2, 0, 0] :=
  c7_two_equal_tiles_merge [2, 2, 0, 0] 2 (by decide) (by decide) (by decide) (by decide)
